import Mathlib

/-!
Verification development for a local retrieval-augmented-generation service.

Shallow embedding of:
- `app/rag.py` : `sources_to_markdown` and `run_pipeline` (the multi-agent
  pipeline orchestrator with partial-failure fallback);
- `app/ollama_client.py` : `generate` (request-payload assembly and its
  error paths).

Python dictionaries are modelled as insertion-ordered association lists,
Python exceptions as an explicit error type threaded through `Except`, and
the behaviour of the external collaborators (configuration store, retriever,
agents, fallback generation call) as an explicit environment record.
-/

namespace RAG

/-- A Python exception value: either an ordinary exception carrying its
message, or an unbound-local-variable error naming the variable that was
referenced before assignment. -/
inductive PyErr where
  | exc (msg : String)
  | unboundLocal (var : String)
  deriving DecidableEq, Repr

/-- `str(e)` for an exception as used when formatting error messages. -/
def pyErrStr : PyErr → String
  | .exc m => m
  | .unboundLocal v => "cannot access local variable " ++ v

/-- Python `dict.get(k)` on an insertion-ordered association list. -/
def dictGet {α : Type} : List (String × α) → String → Option α
  | [], _ => none
  | p :: d, k => if p.1 = k then some p.2 else dictGet d k

/-- Python `d[k] = v` on an insertion-ordered association list: replaces the
value at an existing key in place, otherwise appends at the end. -/
def dictSet {α : Type} : List (String × α) → String → α → List (String × α)
  | [], k, v => [(k, v)]
  | p :: d, k, v => if p.1 = k then (k, v) :: d else p :: dictSet d k v

/-! ## `sources_to_markdown` (`app/rag.py`, lines 56-68)

A source entry is `Option String`: `none` is Python `None` (a passage whose
metadata lacks the `"source"` key).  Python truthiness of a string makes the
empty string falsy, so `if source and source != "Unknown"` holds exactly for
`some s` with `s ≠ ""` and `s ≠ "Unknown"`. -/

/-- One line of the numbered markdown source list
(`f"{i}. **{source}**"` or `f"{i}. Unknown source"`). -/
def mdEntry (i : Nat) (src : Option String) : String :=
  match src with
  | some s =>
      if s ≠ "" ∧ s ≠ "Unknown" then toString i ++ ". **" ++ s ++ "**"
      else toString i ++ ". Unknown source"
  | none => toString i ++ ". Unknown source"

/-- The lines produced by `enumerate(sources, 1)`. -/
def mdLines : Nat → List (Option String) → List String
  | _, [] => []
  | i, s :: rest => mdEntry i s :: mdLines (i + 1) rest

/-- `sources_to_markdown` from `app/rag.py`. -/
def sources_to_markdown (sources : List (Option String)) : String :=
  if sources.isEmpty then "No sources available"
  else String.intercalate "\n" (mdLines 1 sources)

/-- A retrieved passage: its node text and its metadata dictionary
(string-valued where present). -/
structure Passage where
  text : String
  metadata : List (String × String)
  deriving DecidableEq, Repr

/-- `[p.metadata.get("source") for p in passages]` (`app/rag.py`, line 86). -/
def sourcesOf (passages : List Passage) : List (Option String) :=
  passages.map (fun p => dictGet p.metadata "source")

/-- `"\n".join(p.node.text for p in passages)` (`app/rag.py`, line 85). -/
def contextOf (passages : List Passage) : String :=
  String.intercalate "\n" (passages.map Passage.text)

example : sources_to_markdown [] = "No sources available" := rfl

example : sources_to_markdown [some "a.pdf", some "Unknown"] =
    "1. **a.pdf**\n2. Unknown source" := by decide

/-! ## `generate` (`app/ollama_client.py`)

Request-payload assembly (lines 16-33) and the three error paths
(lines 67-82).  Option values carried in `kwargs` and in the payload are
modelled by `PyVal`; numeric literals (512, 0.7, ...) are inert data here,
represented as rationals. -/

/-- A Python value usable as a generation option. -/
inductive PyVal where
  | vNone
  | vBool (b : Bool)
  | vRat (q : ℚ)
  | vStr (s : String)
  | vStrList (l : List String)
  deriving DecidableEq, Repr

/-- `kwargs.get(key, default)`: the stored value (even `None`) when the key
is present, the default otherwise. -/
def kwGet (kwargs : List (String × PyVal)) (key : String) (dflt : PyVal) : PyVal :=
  (dictGet kwargs key).getD dflt

/-- The base request dictionary of `generate` (`app/ollama_client.py`,
lines 16-28), with each per-option default pulled through `kwargs.get`. -/
def basePayload (prompt system_prompt model : String)
    (kwargs : List (String × PyVal)) : List (String × PyVal) :=
  [ ("model", .vStr model),
    ("prompt", .vStr (system_prompt ++ "\n" ++ prompt)),
    ("stream", .vBool false),
    ("num_predict", kwGet kwargs "num_predict" (kwGet kwargs "max_tokens" (.vRat 512))),
    ("top_k", kwGet kwargs "top_k" (.vRat 40)),
    ("top_p", kwGet kwargs "top_p" (.vRat (9 / 10))),
    ("temperature", kwGet kwargs "temperature" (.vRat (7 / 10))),
    ("repeat_penalty", kwGet kwargs "repeat_penalty" (.vRat (11 / 10))),
    ("num_ctx", kwGet kwargs "num_ctx" (.vRat 2048)),
    ("stop", kwGet kwargs "stop" (.vStrList ["\n\n\n"])) ]

/-- The override loop body (`app/ollama_client.py`, lines 31-33): every
caller entry whose value is not `None` and whose key is not `max_tokens`
is written into the payload. -/
def mergeStep (d : List (String × PyVal)) (p : String × PyVal) :
    List (String × PyVal) :=
  if p.2 ≠ PyVal.vNone ∧ p.1 ≠ "max_tokens" then dictSet d p.1 p.2 else d

/-- The request payload built by `generate` (`app/ollama_client.py`,
lines 16-33): the base dictionary, then the override loop over `kwargs`. -/
def buildPayload (prompt system_prompt model : String)
    (kwargs : List (String × PyVal)) : List (String × PyVal) :=
  kwargs.foldl mergeStep (basePayload prompt system_prompt model kwargs)

/-- The generation-option names the specification lists as carrying defaults
merged with caller overrides. -/
def genOptionKeys : List String :=
  ["num_predict", "temperature", "top_p", "repeat_penalty", "num_ctx", "stop"]

/-- The default value `generate` uses for each of those options when the
caller supplies nothing. -/
def genDefault : String → PyVal
  | "num_predict" => .vRat 512
  | "temperature" => .vRat (7 / 10)
  | "top_p" => .vRat (9 / 10)
  | "repeat_penalty" => .vRat (11 / 10)
  | "num_ctx" => .vRat 2048
  | "stop" => .vStrList ["\n\n\n"]
  | _ => .vNone

/-- A Python exception as raised by `generate`: the class name of the raised
exception and its message. -/
structure PyExc where
  excType : String
  msg : String
  deriving DecidableEq, Repr

/-- How the HTTP round trip to the model server can end. -/
inductive HttpOutcome where
  | success (responseField : String)
  | timeout
  | connErr
  | otherFail (detail : String)
  deriving DecidableEq, Repr

/-- `generate` from `app/ollama_client.py`: returns the `"response"` field on
success; on each failure path (lines 67-82) raises the generic `Exception`
class with the branch's message — `requests.exceptions.Timeout`,
`requests.exceptions.ConnectionError` and every other failure are all
re-raised as `raise Exception(error_msg)`. -/
def generate (timeout : Nat) (model url : String) :
    HttpOutcome → Except PyExc String
  | .success r => .ok r
  | .timeout =>
      .error ⟨"Exception",
        "Ollama request timed out after " ++ toString timeout ++
          " seconds. Model: " ++ model⟩
  | .connErr =>
      .error ⟨"Exception", "Could not connect to Ollama server at " ++ url⟩
  | .otherFail d =>
      .error ⟨"Exception", "Ollama request failed: " ++ d⟩

/-- The class name of the exception a `generate` call raised, if any. -/
def raisedType : Except PyExc String → Option String
  | .error e => some e.excType
  | .ok _ => none

/-- The message of the exception a `generate` call raised, if any. -/
def raisedMsg : Except PyExc String → Option String
  | .error e => some e.msg
  | .ok _ => none

/-! ## `run_pipeline` (`app/rag.py`, lines 70-239) -/

/-- One configured pipeline step as read from the YAML step list:
`{"name": ..., "agent": ...}` plus the optional fields read with
`step.get(...)`. -/
structure Step where
  name : String
  agent : String
  estimatedTime : Option Nat
  description : Option String
  deriving DecidableEq, Repr

/-- The slice of an agent's configuration dictionary that `run_pipeline`
reads: `agent_config.get("name", ...)` (debug print only) and
`agent_config["description"]` — the latter a bracket access that raises
`KeyError` when absent, hence `Option`. -/
structure AgentCfg where
  cfgName : Option String
  description : Option String
  deriving DecidableEq, Repr

/-- One entry of the `steps` debug list (`app/rag.py`, lines 152-161). -/
structure StepRecord where
  name : String
  output : String
  markdown : Bool
  step_number : Nat
  agent_name : String
  estimated_time : Nat
  description : String
  execution_time : Nat
  deriving DecidableEq, Repr

/-- The `execution_summary` sub-dictionary of the success payload. -/
structure ExecutionSummary where
  total_time : Nat
  steps_completed : Nat
  model_used : String
  deriving DecidableEq, Repr

/-- The result dictionary `run_pipeline` returns.  Keys present only in some
outcomes (`partial_success`, `error`, `execution_summary`) are `Option`s,
`none` meaning the key is absent from that dictionary. -/
structure RunResult where
  answer : String
  sources : List (Option String)
  debug_steps : List StepRecord
  pipeline_complete : Bool
  partial_success : Option Bool
  error : Option String
  total_steps : Nat
  execution_summary : Option ExecutionSummary
  deriving DecidableEq, Repr

/-- The behaviour of `run_pipeline`'s collaborators during one invocation:
the configuration load (`get_config()` + `get_pipeline_steps()`),
the retrieval block (lines 84-88), per-agent configuration lookup,
each step's `agent_cls.run(prompt, model)` call (indexed by step position),
the wall-clock duration of each step, and the single fallback `generate`
call of the failure handler. -/
structure Env where
  configSteps : Except PyErr (List Step)
  retrieval : Except PyErr (List Passage)
  agentConfig : String → Except PyErr AgentCfg
  agentRun : Nat → String → String → Except PyErr String
  times : Nat → Nat
  fallbackGen : String → Except PyErr String

/-- Membership in `AGENT_MAP` (`app/rag.py`, lines 49-54):
`AGENT_MAP[agent_name]` raises `KeyError` for any other name. -/
def knownAgent (a : String) : Bool :=
  a = "decomposer" || a = "critique" || a = "synthesis" || a = "report_formatter"

/-- The output key each step writes (`app/rag.py`, lines 119-133). -/
def outputKey (a : String) : String :=
  if a = "decomposer" then "breakdown"
  else if a = "critique" then "critique"
  else if a = "synthesis" then "synthesis"
  else if a = "report_formatter" then "final_report"
  else a ++ "_output"

/-- The declared output keys of a step list, in order. -/
def outKeys (l : List Step) : List String :=
  l.map (fun st => outputKey st.agent)

/-- The running context dictionary. -/
abbrev StrDict := List (String × String)

/-- The seed context (`app/rag.py`, lines 91-95). -/
def ctxInit (query context sources_md : String) : StrDict :=
  [("query", query), ("context", context), ("sources_md", sources_md)]

/-- The per-agent-type prompt templates (`app/rag.py`, lines 119-133).
Upstream context keys are read with `ctx.get(key, "N/A")`. -/
def renderPrompt (agent stepName desc query context sources_md : String)
    (ctx : StrDict) : String :=
  if agent = "decomposer" then
    "## " ++ stepName ++ "\n\n" ++ desc ++ "\n\n### User Query\n" ++ query ++
      "\n\n### Context\n" ++ context ++
      "\n\nPlease break down this research question into structured components."
  else if agent = "critique" then
    "## " ++ stepName ++ "\n\n" ++ desc ++ "\n\n### Breakdown\n" ++
      (dictGet ctx "breakdown").getD "N/A" ++ "\n\n### Context\n" ++ context ++
      "\n\nPlease review and improve this research framework."
  else if agent = "synthesis" then
    "## " ++ stepName ++ "\n\n" ++ desc ++ "\n\n### Breakdown\n" ++
      (dictGet ctx "breakdown").getD "N/A" ++ "\n\n### Critique\n" ++
      (dictGet ctx "critique").getD "N/A" ++ "\n\n### Context\n" ++ context ++
      "\n\nPlease synthesize this information into a comprehensive analysis."
  else if agent = "report_formatter" then
    "## " ++ stepName ++ "\n\n" ++ desc ++ "\n\n**Topic:** " ++ query ++
      "\n\n**Breakdown:** " ++ (dictGet ctx "breakdown").getD "N/A" ++
      "\n\n**Critique:** " ++ (dictGet ctx "critique").getD "N/A" ++
      "\n\n**Synthesis:** " ++ (dictGet ctx "synthesis").getD "N/A" ++
      "\n\n**Sources:** " ++ sources_md ++
      "\n\nPlease create a comprehensive, professional report."
  else
    "## " ++ stepName ++ "\n\n" ++ desc ++
      "\n\nPlease process the following information:\n" ++ context

/-- The debug record appended after a successful step
(`app/rag.py`, lines 152-161). -/
def mkRecord (st : Step) (i : Nat) (output : String) (t : Nat) : StepRecord :=
  { name := st.name
    output := output
    markdown := true
    step_number := i + 1
    agent_name := st.agent
    estimated_time := st.estimatedTime.getD 2
    description := st.description.getD ""
    execution_time := t }

/-- The step loop (`app/rag.py`, lines 103-173).  A step raises through
`AGENT_MAP[agent_name]` (unknown agent), `get_agent_config`,
`agent_config["description"]`, or the agent call itself; the per-step
handler re-raises, so the loop stops at the first failing step, carrying
the records of the completed steps. -/
def runSteps (env : Env) (query context sources_md model : String) :
    Nat → StrDict → List StepRecord → List Step →
    Except (List StepRecord × PyErr) (StrDict × List StepRecord)
  | _, ctx, log, [] => .ok (ctx, log)
  | i, ctx, log, st :: rest =>
    match knownAgent st.agent with
    | false => .error (log, PyErr.exc ("KeyError: " ++ st.agent))
    | true =>
      match env.agentConfig st.agent with
      | .error e => .error (log, e)
      | .ok cfg =>
        match cfg.description with
        | none => .error (log, PyErr.exc "KeyError: description")
        | some desc =>
          match env.agentRun i
              (renderPrompt st.agent st.name desc query context sources_md ctx)
              model with
          | .error e => .error (log, e)
          | .ok output =>
            runSteps env query context sources_md model (i + 1)
              (dictSet ctx (outputKey st.agent) output)
              (log ++ [mkRecord st i output (env.times i)]) rest

/-- The warning marker prefixed to a partial-success answer. -/
def warnMarker : String :=
  "⚠️ Pipeline partially completed. Here\x27s what was accomplished:\n\n"

/-- The marker prefixed to a total-failure answer. -/
def failMarker : String := "❌ Pipeline failed completely: "

/-- `partial_context` as concatenated by the failure handler
(`app/rag.py`, lines 207-209). -/
def partialContext (query context : String) (steps : List StepRecord) : String :=
  steps.foldl
    (fun acc step => acc ++ "\n" ++ step.name ++ ":\n" ++ step.output ++ "\n")
    ("Query: " ++ query ++ "\n\nContext: " ++ context ++ "\n\n")

/-- The basic error payload (`app/rag.py`, lines 231-239). -/
def totalFailureResult (error_msg : String) (sources : List (Option String)) :
    RunResult :=
  { answer := failMarker ++ error_msg
    sources := sources
    debug_steps := []
    pipeline_complete := false
    partial_success := some false
    error := some error_msg
    total_steps := 0
    execution_summary := none }

/-- The outer exception handler (`app/rag.py`, lines 192-239) as reached
from a step failure (`steps`, `sources` and `context` are bound there). -/
def pipelineHandler (env : Env) (query context : String)
    (sources : List (Option String)) (steps : List StepRecord) (e : PyErr) :
    RunResult :=
  let error_msg :=
    "Pipeline failed at step " ++ toString (steps.length + 1) ++ ": " ++ pyErrStr e
  if steps.isEmpty then totalFailureResult error_msg sources
  else
    match env.fallbackGen
        ("Based on the following completed research steps, provide a summary of what was accomplished:\n\n"
          ++ partialContext query context steps) with
    | .ok fallback_response =>
        { answer := warnMarker ++ fallback_response
          sources := sources
          debug_steps := steps
          pipeline_complete := false
          partial_success := some true
          error := some error_msg
          total_steps := steps.length
          execution_summary := none }
    | .error _ => totalFailureResult error_msg sources

/-- The success payload (`app/rag.py`, lines 179-190). -/
def successResult (model : String) (sources : List (Option String))
    (ctx : StrDict) (log : List StepRecord) : RunResult :=
  { answer :=
      (dictGet ctx "final_report").getD
        "Pipeline completed but no final report generated"
    sources := sources
    debug_steps := log
    pipeline_complete := true
    partial_success := none
    error := none
    total_steps := log.length
    execution_summary :=
      some { total_time := (log.map StepRecord.execution_time).sum
             steps_completed := log.length
             model_used := model } }

/-- `run_pipeline` from `app/rag.py`.  A `.error` result is an exception
escaping `run_pipeline` itself: when the configuration load or the retrieval
block raises, the outer handler's own first statement
(`f"Pipeline failed at step {len(steps) + 1}: ..."`) references the local
`steps`, which is only assigned later (line 99), so the handler raises
`UnboundLocalError` for `steps` and `run_pipeline` does not return. -/
def run_pipeline (query model : String) (env : Env) : Except PyErr RunResult :=
  match env.configSteps with
  | .error _ => .error (.unboundLocal "steps")
  | .ok pipeline_steps =>
    match env.retrieval with
    | .error _ => .error (.unboundLocal "steps")
    | .ok passages =>
      match runSteps env query (contextOf passages)
          (sources_to_markdown (sourcesOf passages)) model 0
          (ctxInit query (contextOf passages)
            (sources_to_markdown (sourcesOf passages)))
          [] pipeline_steps with
      | .ok (ctx, log) => .ok (successResult model (sourcesOf passages) ctx log)
      | .error (log, e) =>
          .ok (pipelineHandler env query (contextOf passages)
                (sourcesOf passages) log e)

/-! ## Concrete runs used as witnesses and counterexamples -/

/-- A decomposer step as in the default configuration. -/
def stepD : Step := ⟨"Breakdown", "decomposer", none, none⟩

/-- A critique step as in the default configuration. -/
def stepC : Step := ⟨"Critique", "critique", none, none⟩

/-- Two-step run where the second agent call raises and the fallback
generation succeeds. -/
def envA : Env :=
  { configSteps := .ok [stepD, stepC]
    retrieval := .ok []
    agentConfig := fun _ => .ok ⟨some "Agent", some "desc"⟩
    agentRun := fun i _ _ => if i = 0 then .ok "out0" else .error (.exc "boom")
    times := fun _ => 0
    fallbackGen := fun _ => .ok "fb" }

/-- Like `envA`, but the fallback generation call raises too. -/
def envB : Env :=
  { envA with fallbackGen := fun _ => .error (.exc "fallback boom") }

/-- Two-step run (decomposer then critique) where every call succeeds. -/
def envC : Env :=
  { envA with agentRun := fun _ _ _ => .ok "out" }

/-- Run of two decomposer steps where every call succeeds: both steps write
the same output key `"breakdown"`. -/
def envDup : Env :=
  { envC with configSteps := .ok [stepD, stepD] }

/-- Run whose configuration load raises (`get_pipeline_steps` raises
`KeyError` when the YAML has no `pipeline` section) before `steps` or
`sources` are assigned. -/
def envCfgErr : Env :=
  { envA with
      configSteps := .error (.exc "KeyError: No pipeline section found in configuration") }

/-! ## Association-list lemmas -/

theorem dictGet_dictSet {α : Type} (d : List (String × α)) (k key : String)
    (v : α) :
    dictGet (dictSet d k v) key = if k = key then some v else dictGet d key := by
  induction d with
  | nil => simp [dictGet, dictSet]
  | cons p d ih =>
    by_cases h : p.1 = k
    · simp only [dictSet, h, if_pos rfl, dictGet]
      split_ifs with h1 <;> simp [dictGet, h, h1]
    · simp only [dictSet, if_neg h, dictGet]
      split_ifs with h1 h2 <;> simp_all [dictGet]

theorem dictGet_isSome_iff {α : Type} (d : List (String × α)) (key : String) :
    (dictGet d key).isSome ↔ key ∈ d.map Prod.fst := by
  induction d with
  | nil => simp [dictGet]
  | cons p d ih =>
    by_cases h : p.1 = key
    · simp [dictGet, h]
    · simp only [dictGet, if_neg h, List.map_cons, List.mem_cons, ih]
      constructor
      · exact Or.inr
      · rintro (he | hk)
        · exact absurd he.symm h
        · exact hk

theorem keys_dictSet_of_not_mem {α : Type} (d : List (String × α))
    (k : String) (v : α) (h : k ∉ d.map Prod.fst) :
    (dictSet d k v).map Prod.fst = d.map Prod.fst ++ [k] := by
  induction d with
  | nil => simp [dictSet]
  | cons p d ih =>
    simp only [List.map_cons, List.mem_cons] at h
    push_neg at h
    simp [dictSet, Ne.symm h.1, ih h.2]

theorem dictGet_of_mem_nodup {α : Type} (d : List (String × α))
    (k : String) (v : α) (hnd : (d.map Prod.fst).Nodup) (hm : (k, v) ∈ d) :
    dictGet d k = some v := by
  induction d with
  | nil => simp at hm
  | cons p d ih =>
    simp only [List.map_cons, List.nodup_cons] at hnd
    rcases List.mem_cons.mp hm with h | h
    · simp [dictGet, ← h]
    · have hk : p.1 ≠ k := by
        intro he
        exact hnd.1 (he ▸ List.mem_map_of_mem Prod.fst h)
      simp [dictGet, hk, ih hnd.2 h]

theorem dictGet_of_not_mem {α : Type} (d : List (String × α)) (k : String)
    (h : k ∉ d.map Prod.fst) : dictGet d k = none := by
  induction d with
  | nil => rfl
  | cons p d ih =>
    simp only [List.map_cons, List.mem_cons] at h
    push_neg at h
    simp [dictGet, Ne.symm h.1, ih h.2]

/-! ## Claim C7 -/

/-- C7: `sources_to_markdown` returns the literal string
"No sources available" for the empty list, and for `["a.pdf", "Unknown"]`
returns exactly "1. **a.pdf**\n2. Unknown source" — a numbered markdown
list bolding known labels and rendering the literal "Unknown" as
"Unknown source". -/
theorem c7_sources_to_markdown_literals :
    sources_to_markdown [] = "No sources available" ∧
    sources_to_markdown [some "a.pdf", some "Unknown"] =
      "1. **a.pdf**\n2. Unknown source" :=
  ⟨rfl, by decide⟩

/-! ## Claim C6 -/

/-- C6: for every template that reads an upstream context key (breakdown,
critique, synthesis), whenever that one key is absent from the context —
whatever the other keys hold — rendering substitutes the literal string
"N/A" for exactly that slot, fills present keys with their stored values,
and is a total function, never failing on the unmet dependency.  One
conjunct per (template, absent key) pair, plus the mixed case of a present
breakdown with an absent critique spelled out with literal values. -/
theorem c6_missing_upstream_key_renders_na
    (stepName desc query context sources_md : String) (ctx : StrDict) :
    (dictGet ctx "breakdown" = none →
      renderPrompt "critique" stepName desc query context sources_md ctx =
        "## " ++ stepName ++ "\n\n" ++ desc ++ "\n\n### Breakdown\n" ++ "N/A" ++
          "\n\n### Context\n" ++ context ++
          "\n\nPlease review and improve this research framework.")
    ∧ (dictGet ctx "breakdown" = none →
      renderPrompt "synthesis" stepName desc query context sources_md ctx =
        "## " ++ stepName ++ "\n\n" ++ desc ++ "\n\n### Breakdown\n" ++ "N/A" ++
          "\n\n### Critique\n" ++ (dictGet ctx "critique").getD "N/A" ++
          "\n\n### Context\n" ++ context ++
          "\n\nPlease synthesize this information into a comprehensive analysis.")
    ∧ (dictGet ctx "critique" = none →
      renderPrompt "synthesis" stepName desc query context sources_md ctx =
        "## " ++ stepName ++ "\n\n" ++ desc ++ "\n\n### Breakdown\n" ++
          (dictGet ctx "breakdown").getD "N/A" ++
          "\n\n### Critique\n" ++ "N/A" ++ "\n\n### Context\n" ++ context ++
          "\n\nPlease synthesize this information into a comprehensive analysis.")
    ∧ (∀ bv, dictGet ctx "breakdown" = some bv → dictGet ctx "critique" = none →
      renderPrompt "synthesis" stepName desc query context sources_md ctx =
        "## " ++ stepName ++ "\n\n" ++ desc ++ "\n\n### Breakdown\n" ++ bv ++
          "\n\n### Critique\n" ++ "N/A" ++ "\n\n### Context\n" ++ context ++
          "\n\nPlease synthesize this information into a comprehensive analysis.")
    ∧ (dictGet ctx "breakdown" = none →
      renderPrompt "report_formatter" stepName desc query context sources_md ctx =
        "## " ++ stepName ++ "\n\n" ++ desc ++ "\n\n**Topic:** " ++ query ++
          "\n\n**Breakdown:** " ++ "N/A" ++
          "\n\n**Critique:** " ++ (dictGet ctx "critique").getD "N/A" ++
          "\n\n**Synthesis:** " ++ (dictGet ctx "synthesis").getD "N/A" ++
          "\n\n**Sources:** " ++ sources_md ++
          "\n\nPlease create a comprehensive, professional report.")
    ∧ (dictGet ctx "critique" = none →
      renderPrompt "report_formatter" stepName desc query context sources_md ctx =
        "## " ++ stepName ++ "\n\n" ++ desc ++ "\n\n**Topic:** " ++ query ++
          "\n\n**Breakdown:** " ++ (dictGet ctx "breakdown").getD "N/A" ++
          "\n\n**Critique:** " ++ "N/A" ++
          "\n\n**Synthesis:** " ++ (dictGet ctx "synthesis").getD "N/A" ++
          "\n\n**Sources:** " ++ sources_md ++
          "\n\nPlease create a comprehensive, professional report.")
    ∧ (dictGet ctx "synthesis" = none →
      renderPrompt "report_formatter" stepName desc query context sources_md ctx =
        "## " ++ stepName ++ "\n\n" ++ desc ++ "\n\n**Topic:** " ++ query ++
          "\n\n**Breakdown:** " ++ (dictGet ctx "breakdown").getD "N/A" ++
          "\n\n**Critique:** " ++ (dictGet ctx "critique").getD "N/A" ++
          "\n\n**Synthesis:** " ++ "N/A" ++
          "\n\n**Sources:** " ++ sources_md ++
          "\n\nPlease create a comprehensive, professional report.") := by
  refine ⟨?_, ?_, ?_, ?_, ?_, ?_, ?_⟩ <;> intros <;> simp [renderPrompt, *]

/-- Witness for C6 at a partially filled context: breakdown present with
value "B", critique absent — the synthesis prompt renders the stored
breakdown and "N/A" for the missing critique only. -/
theorem c6_witness :
    renderPrompt "synthesis" "Synthesis" "d" "q" "c" "s"
      [("query", "q"), ("context", "c"), ("sources_md", "s"),
        ("breakdown", "B")] =
      "## " ++ "Synthesis" ++ "\n\n" ++ "d" ++ "\n\n### Breakdown\n" ++ "B" ++
        "\n\n### Critique\n" ++ "N/A" ++ "\n\n### Context\n" ++ "c" ++
        "\n\nPlease synthesize this information into a comprehensive analysis." :=
  (c6_missing_upstream_key_renders_na "Synthesis" "d" "q" "c" "s"
    [("query", "q"), ("context", "c"), ("sources_md", "s"),
      ("breakdown", "B")]).2.2.2.1 "B" rfl rfl

/-! ## Claim C10 -/

/-- C10: a retrieved passage whose metadata lacks the "source" key
contributes the entry `None` to the pipeline's sources list;
`sources_to_markdown` renders every falsy entry (`None` or the empty
string), exactly like the literal "Unknown", as "i. Unknown source"
without raising, and bolds every other non-empty label; for a nonempty
list the result is the newline-join of those numbered lines. -/
theorem c10_missing_source_metadata (passages : List Passage) (i : Nat)
    (h : i < passages.length)
    (hmiss : dictGet (passages.get ⟨i, h⟩).metadata "source" = none) :
    (sourcesOf passages).get? i = some none
    ∧ (∀ j : Nat,
        mdEntry j none = toString j ++ ". Unknown source"
        ∧ mdEntry j (some "") = toString j ++ ". Unknown source"
        ∧ mdEntry j (some "Unknown") = toString j ++ ". Unknown source"
        ∧ ∀ s : String, s ≠ "" → s ≠ "Unknown" →
            mdEntry j (some s) = toString j ++ ". **" ++ s ++ "**")
    ∧ (∀ l : List (Option String), l ≠ [] →
        sources_to_markdown l = String.intercalate "\n" (mdLines 1 l)) := by
  refine ⟨?_, ?_, ?_⟩
  · have hg : passages.get? i = some (passages.get ⟨i, h⟩) := List.get?_eq_get h
    refine (by simp [sourcesOf, List.getElem?_map] :
      (sourcesOf passages).get? i =
        (passages.get? i).map (fun p => dictGet p.metadata "source")).trans ?_
    rw [hg]
    simpa [List.get_eq_getElem] using hmiss
  · intro j
    refine ⟨rfl, by simp [mdEntry], by simp [mdEntry], ?_⟩
    intro s hs1 hs2
    simp [mdEntry, hs1, hs2]
  · intro l hl
    cases l with
    | nil => exact absurd rfl hl
    | cons s rest => rfl

/-- A passage whose metadata has no "source" key. -/
def passNoSource : Passage := ⟨"t", [("page", "1")]⟩

/-! ## Behaviour of the step loop -/

/-- Step `i` (0-based) runs through: its agent is in `AGENT_MAP`, its
configuration lookup returns a dictionary carrying a description, and the
agent call returns an output whatever prompt it receives. -/
def StepOk (env : Env) (m : String) (i : Nat) (st : Step) : Prop :=
  knownAgent st.agent = true
  ∧ (∃ cfg, env.agentConfig st.agent = .ok cfg ∧ ∃ d, cfg.description = some d)
  ∧ (∀ p, ∃ out, env.agentRun i p m = .ok out)

/-- Step `i` (0-based) raises: through the `AGENT_MAP` lookup, the agent
configuration lookup, the `description` bracket access, or the agent call
itself. -/
def StepRaises (env : Env) (m : String) (i : Nat) (st : Step) : Prop :=
  knownAgent st.agent = false
  ∨ (∃ e, env.agentConfig st.agent = .error e)
  ∨ (∃ cfg, env.agentConfig st.agent = .ok cfg ∧ cfg.description = none)
  ∨ (∀ p, ∃ e, env.agentRun i p m = .error e)

theorem runSteps_all_ok (env : Env) (q c s m : String) :
    ∀ (l : List Step) (i : Nat) (ctx : StrDict) (log : List StepRecord),
    (∀ j (hj : j < l.length), StepOk env m (i + j) l[j]) →
    ∃ ctx' log',
      runSteps env q c s m i ctx log l = .ok (ctx', log ++ log')
      ∧ log'.map (fun r => (r.name, r.agent_name)) =
          l.map (fun st => (st.name, st.agent))
      ∧ log'.map StepRecord.step_number = List.range' (i + 1) l.length := by
  intro l
  induction l with
  | nil =>
    intro i ctx log _
    exact ⟨ctx, [], by simp [runSteps], rfl, rfl⟩
  | cons st rest ih =>
    intro i ctx log hok
    have h0 := hok 0 (by simp)
    simp only [List.getElem_cons_zero, Nat.add_zero] at h0
    obtain ⟨hk, ⟨cfg, hcfg, desc, hd⟩, hrun⟩ := h0
    obtain ⟨out, hout⟩ := hrun (renderPrompt st.agent st.name desc q c s ctx)
    obtain ⟨ctx', log'', hrec, hnames, hnums⟩ :=
      ih (i + 1) (dictSet ctx (outputKey st.agent) out)
        (log ++ [mkRecord st i out (env.times i)])
        (by
          intro j hj
          have he : i + (j + 1) = i + 1 + j := by omega
          have h2 := hok (j + 1) (by simpa using Nat.succ_lt_succ hj)
          exact he ▸ h2)
    refine ⟨ctx', mkRecord st i out (env.times i) :: log'', ?_, ?_, ?_⟩
    · simp only [runSteps, hk, hcfg, hd, hout]
      rw [hrec]
      simp [List.append_assoc]
    · simp [mkRecord, hnames]
    · simp [mkRecord, hnums, List.range'_succ]

theorem runSteps_append (env : Env) (q c s m : String) (l₁ l₂ : List Step) :
    ∀ (i : Nat) (ctx : StrDict) (log : List StepRecord) (ctx' : StrDict)
      (log' : List StepRecord),
    runSteps env q c s m i ctx log l₁ = .ok (ctx', log') →
    runSteps env q c s m i ctx log (l₁ ++ l₂) =
      runSteps env q c s m (i + l₁.length) ctx' log' l₂ := by
  induction l₁ with
  | nil =>
    intro i ctx log ctx' log' h
    simp only [runSteps] at h
    cases h
    simp
  | cons st rest ih =>
    intro i ctx log ctx' log' h
    cases hk : knownAgent st.agent <;>
      simp only [runSteps, List.cons_append, hk] at h ⊢
    · simp at h
    · cases hcfg : env.agentConfig st.agent <;> simp only [hcfg] at h ⊢
      · simp at h
      · rename_i cfg
        cases hd : cfg.description <;> simp only [hd] at h ⊢
        · simp at h
        · rename_i desc
          cases hout : env.agentRun i
              (renderPrompt st.agent st.name desc q c s ctx) m <;>
            simp only [hout] at h ⊢
          · simp at h
          · simp only [List.append_eq]
            rw [ih _ _ _ _ _ h]
            have hl : i + (st :: rest).length = i + 1 + rest.length := by
              rw [List.length_cons]; omega
            rw [hl]

theorem runSteps_raises (env : Env) (q c s m : String) (st : Step)
    (l₂ : List Step) (i : Nat) (ctx : StrDict) (log : List StepRecord)
    (hraise : StepRaises env m i st) :
    ∃ e, runSteps env q c s m i ctx log (st :: l₂) = .error (log, e) := by
  cases hk : knownAgent st.agent
  · exact ⟨PyErr.exc ("KeyError: " ++ st.agent), by simp only [runSteps, hk]⟩
  · cases hcfg : env.agentConfig st.agent with
    | error e => exact ⟨e, by simp only [runSteps, hk, hcfg]⟩
    | ok cfg =>
      cases hd : cfg.description with
      | none =>
        exact ⟨PyErr.exc "KeyError: description",
          by simp only [runSteps, hk, hcfg, hd]⟩
      | some desc =>
        rcases hraise with h | ⟨e, he⟩ | ⟨cfg', hcfg', hdesc'⟩ | h4
        · rw [h] at hk; cases hk
        · rw [he] at hcfg; cases hcfg
        · rw [hcfg'] at hcfg
          injection hcfg with hcc
          rw [hcc] at hdesc'
          rw [hdesc'] at hd
          cases hd
        · obtain ⟨e, he⟩ := h4 (renderPrompt st.agent st.name desc q c s ctx)
          exact ⟨e, by simp only [runSteps, hk, hcfg, hd, he]⟩

theorem runSteps_ok_keys (env : Env) (q c s m : String) :
    ∀ (l : List Step) (i : Nat) (ctx : StrDict) (log : List StepRecord)
      (ctx' : StrDict) (log' : List StepRecord),
    runSteps env q c s m i ctx log l = .ok (ctx', log') →
    ∀ key, (dictGet ctx' key).isSome ↔
      ((dictGet ctx key).isSome ∨ key ∈ outKeys l) := by
  intro l
  induction l with
  | nil =>
    intro i ctx log ctx' log' h key
    simp only [runSteps] at h
    cases h
    simp [outKeys]
  | cons st rest ih =>
    intro i ctx log ctx' log' h key
    cases hk : knownAgent st.agent <;> simp only [runSteps, hk] at h
    · simp at h
    · cases hcfg : env.agentConfig st.agent <;> simp only [hcfg] at h
      · simp at h
      · rename_i cfg
        cases hd : cfg.description <;> simp only [hd] at h
        · simp at h
        · rename_i desc
          cases hout : env.agentRun i
              (renderPrompt st.agent st.name desc q c s ctx) m <;>
            simp only [hout] at h
          · simp at h
          · rename_i out
            rw [ih _ _ _ _ _ h key, dictGet_dictSet]
            by_cases hkey : outputKey st.agent = key
            · simp [outKeys, hkey]
            · simp only [if_neg hkey, outKeys, List.map_cons, List.mem_cons]
              constructor
              · rintro (hs | hm)
                · exact Or.inl hs
                · exact Or.inr (Or.inr hm)
              · rintro (hs | he | hm)
                · exact Or.inl hs
                · exact absurd he.symm hkey
                · exact Or.inr hm

theorem runSteps_ok_keysList (env : Env) (q c s m : String) :
    ∀ (l : List Step) (i : Nat) (ctx : StrDict) (log : List StepRecord)
      (ctx' : StrDict) (log' : List StepRecord),
    runSteps env q c s m i ctx log l = .ok (ctx', log') →
    ((ctx.map Prod.fst) ++ outKeys l).Nodup →
    ctx'.map Prod.fst = ctx.map Prod.fst ++ outKeys l := by
  intro l
  induction l with
  | nil =>
    intro i ctx log ctx' log' h _
    simp only [runSteps] at h
    cases h
    simp [outKeys]
  | cons st rest ih =>
    intro i ctx log ctx' log' h hnd
    cases hk : knownAgent st.agent <;> simp only [runSteps, hk] at h
    · simp at h
    · cases hcfg : env.agentConfig st.agent <;> simp only [hcfg] at h
      · simp at h
      · rename_i cfg
        cases hd : cfg.description <;> simp only [hd] at h
        · simp at h
        · rename_i desc
          cases hout : env.agentRun i
              (renderPrompt st.agent st.name desc q c s ctx) m <;>
            simp only [hout] at h
          · simp at h
          · rename_i out
            have hκ : outputKey st.agent ∉ ctx.map Prod.fst := by
              have hdisj := (List.nodup_append.mp hnd).2.2
              intro hmem
              exact hdisj hmem (by simp [outKeys])
            have hkeys := keys_dictSet_of_not_mem ctx (outputKey st.agent) out hκ
            have hnd' : ((dictSet ctx (outputKey st.agent) out).map Prod.fst ++
                outKeys rest).Nodup := by
              rw [hkeys, List.append_assoc, List.singleton_append]
              simpa [outKeys] using hnd
            have := ih _ _ _ _ _ h hnd'
            rw [this, hkeys, List.append_assoc, List.singleton_append]
            simp [outKeys]

/-- Shared shape of every step-failure run: when steps `1..k-1` (1-indexed)
complete and step `k` raises, `run_pipeline` reaches the outer handler with
exactly the `k-1` completed records. -/
theorem run_pipeline_step_failure (query model : String) (env : Env)
    (stepsCfg : List Step) (passages : List Passage) (k : Nat)
    (hc : env.configSteps = .ok stepsCfg)
    (hr : env.retrieval = .ok passages)
    (hk1 : 1 ≤ k) (hk2 : k ≤ stepsCfg.length)
    (hok : ∀ j (hj : j < k - 1), StepOk env model j (stepsCfg.get ⟨j, by omega⟩))
    (hraise : StepRaises env model (k - 1) (stepsCfg.get ⟨k - 1, by omega⟩)) :
    ∃ logm e, logm.length = k - 1
      ∧ run_pipeline query model env =
          .ok (pipelineHandler env query (contextOf passages)
            (sourcesOf passages) logm e) := by
  have hlt : k - 1 < stepsCfg.length := by omega
  have hsplit : stepsCfg =
      stepsCfg.take (k - 1) ++ stepsCfg.get ⟨k - 1, hlt⟩ :: stepsCfg.drop k := by
    conv_lhs => rw [← List.take_append_drop (k - 1) stepsCfg]
    congr 1
    rw [List.drop_eq_getElem_cons hlt, List.get_eq_getElem]
    rw [show k - 1 + 1 = k by omega]
  have htklen : (stepsCfg.take (k - 1)).length = k - 1 :=
    List.length_take_of_le (by omega)
  have hokpre : ∀ j (hj : j < (stepsCfg.take (k - 1)).length),
      StepOk env model (0 + j) (stepsCfg.take (k - 1))[j] := by
    intro j hj
    rw [htklen] at hj
    have := hok j hj
    simpa [List.getElem_take, List.get_eq_getElem] using this
  obtain ⟨ctxm, logm, hrunpre, hnamesm, hnumsm⟩ :=
    runSteps_all_ok env query (contextOf passages)
      (sources_to_markdown (sourcesOf passages)) model
      (stepsCfg.take (k - 1)) 0
      (ctxInit query (contextOf passages)
        (sources_to_markdown (sourcesOf passages))) [] hokpre
  rw [List.nil_append] at hrunpre
  have hlogm : logm.length = k - 1 := by
    have h1 : logm.length = (stepsCfg.take (k - 1)).length := by
      simpa only [List.length_map] using congrArg List.length hnamesm
    rw [htklen] at h1
    exact h1
  have hraise' : StepRaises env model ((stepsCfg.take (k - 1)).length)
      (stepsCfg.get ⟨k - 1, hlt⟩) := by
    rw [htklen]
    exact hraise
  obtain ⟨e, hfail⟩ :=
    runSteps_raises env query (contextOf passages)
      (sources_to_markdown (sourcesOf passages)) model
      (stepsCfg.get ⟨k - 1, hlt⟩) (stepsCfg.drop k)
      ((stepsCfg.take (k - 1)).length) ctxm logm hraise'
  have hjump :=
    runSteps_append env query (contextOf passages)
      (sources_to_markdown (sourcesOf passages)) model
      (stepsCfg.take (k - 1)) (stepsCfg.get ⟨k - 1, hlt⟩ :: stepsCfg.drop k)
      0 (ctxInit query (contextOf passages)
        (sources_to_markdown (sourcesOf passages))) [] ctxm logm hrunpre
  have hfull : runSteps env query (contextOf passages)
      (sources_to_markdown (sourcesOf passages)) model 0
      (ctxInit query (contextOf passages)
        (sources_to_markdown (sourcesOf passages))) [] stepsCfg =
      .error (logm, e) := by
    conv_lhs => rw [hsplit]
    rw [hjump]
    simpa using hfail
  refine ⟨logm, e, hlogm, ?_⟩
  simp only [run_pipeline, hc, hr, hfull]

/-! ## Claim C1 -/

/-- C1: if the k-th configured step (1-indexed) raises: for k > 1 with a
succeeding fallback call, `run_pipeline` returns a partial-failure result
with `debug_steps` of length k-1, `pipeline_complete` false and the fallback
text (behind the warning marker) as the answer; for k = 1 it returns a
total-failure result regardless of fallback viability; for k > 1 with a
failing fallback call it returns a total-failure result. -/
theorem c1_step_failure_outcomes (query model : String) (env : Env)
    (stepsCfg : List Step) (passages : List Passage) (k : Nat)
    (hc : env.configSteps = .ok stepsCfg)
    (hr : env.retrieval = .ok passages)
    (hk1 : 1 ≤ k) (hk2 : k ≤ stepsCfg.length)
    (hok : ∀ j (hj : j < k - 1), StepOk env model j (stepsCfg.get ⟨j, by omega⟩))
    (hraise : StepRaises env model (k - 1) (stepsCfg.get ⟨k - 1, by omega⟩)) :
    (∀ fb, 2 ≤ k → (∀ p, env.fallbackGen p = .ok fb) →
      ∃ r, run_pipeline query model env = .ok r
        ∧ r.debug_steps.length = k - 1
        ∧ r.pipeline_complete = false
        ∧ r.partial_success = some true
        ∧ r.answer = warnMarker ++ fb)
    ∧ (k = 1 →
      ∃ r, run_pipeline query model env = .ok r
        ∧ r.debug_steps = []
        ∧ r.pipeline_complete = false
        ∧ r.partial_success = some false
        ∧ r.total_steps = 0)
    ∧ (∀ e2, 2 ≤ k → (∀ p, env.fallbackGen p = .error e2) →
      ∃ r, run_pipeline query model env = .ok r
        ∧ r.debug_steps = []
        ∧ r.pipeline_complete = false
        ∧ r.partial_success = some false
        ∧ r.total_steps = 0) := by
  obtain ⟨logm, e, hlen, hrp⟩ :=
    run_pipeline_step_failure query model env stepsCfg passages k
      hc hr hk1 hk2 hok hraise
  refine ⟨?_, ?_, ?_⟩
  · intro fb hk2' hfb
    have hne : logm.isEmpty = false := by
      rw [List.isEmpty_eq_false]
      intro h0
      rw [h0] at hlen
      simp at hlen
      omega
    exact ⟨_, hrp, by simp [pipelineHandler, hne, hfb, hlen],
      by simp [pipelineHandler, hne, hfb],
      by simp [pipelineHandler, hne, hfb],
      by simp [pipelineHandler, hne, hfb]⟩
  · intro hk1'
    have h0 : logm = [] := by
      rw [hk1'] at hlen
      simpa using hlen
    subst h0
    exact ⟨_, hrp, by simp [pipelineHandler, totalFailureResult],
      by simp [pipelineHandler, totalFailureResult],
      by simp [pipelineHandler, totalFailureResult],
      by simp [pipelineHandler, totalFailureResult]⟩
  · intro e2 hk2' hfb
    have hne : logm.isEmpty = false := by
      rw [List.isEmpty_eq_false]
      intro h0
      rw [h0] at hlen
      simp at hlen
      omega
    exact ⟨_, hrp, by simp [pipelineHandler, hne, hfb, totalFailureResult],
      by simp [pipelineHandler, hne, hfb, totalFailureResult],
      by simp [pipelineHandler, hne, hfb, totalFailureResult],
      by simp [pipelineHandler, hne, hfb, totalFailureResult]⟩

/-- Witness for C1 on `envA`: two configured steps, the second raises, the
fallback call succeeds. -/
theorem c1_witness :
    ∃ r, run_pipeline "q" "m" envA = .ok r
      ∧ r.debug_steps.length = 2 - 1
      ∧ r.pipeline_complete = false
      ∧ r.partial_success = some true
      ∧ r.answer = warnMarker ++ "fb" :=
  (c1_step_failure_outcomes "q" "m" envA [stepD, stepC] [] 2 rfl rfl
      (by omega) (by decide)
      (by
        intro j hj
        have hj0 : j = 0 := by omega
        subst hj0
        exact ⟨rfl, ⟨⟨some "Agent", some "desc"⟩, rfl, "desc", rfl⟩,
          fun p => ⟨"out0", rfl⟩⟩)
      (Or.inr (Or.inr (Or.inr (fun p => ⟨PyErr.exc "boom", rfl⟩))))).1
    "fb" (by omega) (fun p => rfl)

/-! ## Claim C2 -/

/-- C2: when every configured step's agent call succeeds, `run_pipeline`
returns a success result whose `debug_steps` has one record per configured
step (in order, with matching names, agents and 1-based step numbers),
whose `pipeline_complete` flag is true, whose answer is the context value
under `"final_report"` — or the sentinel string when that key is absent —
and which carries all retrieved source labels. -/
theorem c2_full_success (query model : String) (env : Env)
    (stepsCfg : List Step) (passages : List Passage)
    (hc : env.configSteps = .ok stepsCfg)
    (hr : env.retrieval = .ok passages)
    (hok : ∀ j (hj : j < stepsCfg.length), StepOk env model j stepsCfg[j]) :
    ∃ r ctx log,
      run_pipeline query model env = .ok r
      ∧ runSteps env query (contextOf passages)
          (sources_to_markdown (sourcesOf passages)) model 0
          (ctxInit query (contextOf passages)
            (sources_to_markdown (sourcesOf passages))) [] stepsCfg =
          .ok (ctx, log)
      ∧ r.debug_steps = log
      ∧ log.length = stepsCfg.length
      ∧ r.pipeline_complete = true
      ∧ r.total_steps = stepsCfg.length
      ∧ r.answer = (dictGet ctx "final_report").getD
          "Pipeline completed but no final report generated"
      ∧ r.sources = sourcesOf passages
      ∧ log.map (fun rec => (rec.name, rec.agent_name)) =
          stepsCfg.map (fun st => (st.name, st.agent))
      ∧ log.map StepRecord.step_number = List.range' 1 stepsCfg.length := by
  have hok0 : ∀ j (hj : j < stepsCfg.length),
      StepOk env model (0 + j) stepsCfg[j] := by
    intro j hj
    simpa using hok j hj
  obtain ⟨ctx, log, hrs, hnames, hnums⟩ :=
    runSteps_all_ok env query (contextOf passages)
      (sources_to_markdown (sourcesOf passages)) model stepsCfg 0
      (ctxInit query (contextOf passages)
        (sources_to_markdown (sourcesOf passages))) [] hok0
  rw [List.nil_append] at hrs
  have hlen : log.length = stepsCfg.length := by
    have := congrArg List.length hnames
    simpa using this
  refine ⟨successResult model (sourcesOf passages) ctx log, ctx, log,
    ?_, hrs, rfl, hlen, rfl, ?_, rfl, rfl, hnames, by simpa using hnums⟩
  · simp only [run_pipeline, hc, hr, hrs]
  · simp [successResult, hlen]

/-- Witness for C2 on `envC`: two configured steps, every call succeeds. -/
theorem c2_witness :
    ∃ r ctx log,
      run_pipeline "q" "m" envC = .ok r
      ∧ runSteps envC "q" (contextOf [])
          (sources_to_markdown (sourcesOf [])) "m" 0
          (ctxInit "q" (contextOf []) (sources_to_markdown (sourcesOf [])))
          [] [stepD, stepC] = .ok (ctx, log)
      ∧ r.debug_steps = log
      ∧ log.length = [stepD, stepC].length
      ∧ r.pipeline_complete = true
      ∧ r.total_steps = [stepD, stepC].length
      ∧ r.answer = (dictGet ctx "final_report").getD
          "Pipeline completed but no final report generated"
      ∧ r.sources = sourcesOf []
      ∧ log.map (fun rec => (rec.name, rec.agent_name)) =
          [stepD, stepC].map (fun st => (st.name, st.agent))
      ∧ log.map StepRecord.step_number = List.range' 1 [stepD, stepC].length :=
  c2_full_success "q" "m" envC [stepD, stepC] [] rfl rfl
    (by
      intro j hj
      simp only [List.length_cons, List.length_nil] at hj
      rcases (by omega : j = 0 ∨ j = 1) with rfl | rfl
      · exact ⟨rfl, ⟨⟨some "Agent", some "desc"⟩, rfl, "desc", rfl⟩,
          fun p => ⟨"out", rfl⟩⟩
      · exact ⟨rfl, ⟨⟨some "Agent", some "desc"⟩, rfl, "desc", rfl⟩,
          fun p => ⟨"out", rfl⟩⟩)

/-! ## Claim C3 -/

/-- C3: the claim states `run_pipeline` never raises past its own boundary
for any collaborator behaviour.  The code violates it: when the
configuration load raises (here: `get_pipeline_steps` raising `KeyError`
because the YAML lacks a `pipeline` section), the outer handler's first
statement references the still-unassigned local `steps`, so the handler
itself raises `UnboundLocalError`, which escapes `run_pipeline`. -/
theorem c3_unbound_local_escape :
    run_pipeline "q" "m" envCfgErr = .error (PyErr.unboundLocal "steps") := rfl

/-! ## Claim C4 -/

/-- C4 (amended): every failure result `run_pipeline` returns carries the
retrieved source labels and an explanatory error message; but when steps
completed before the failure and the fallback generation also fails, the
returned total-failure payload has an empty `debug_steps` list — the
completed steps' records are dropped, not preserved as the claim states. -/
theorem c4_failure_payload_contents (query model : String) (env : Env)
    (stepsCfg : List Step) (passages : List Passage) (k : Nat)
    (hc : env.configSteps = .ok stepsCfg)
    (hr : env.retrieval = .ok passages)
    (hk1 : 1 ≤ k) (hk2 : k ≤ stepsCfg.length)
    (hok : ∀ j (hj : j < k - 1), StepOk env model j (stepsCfg.get ⟨j, by omega⟩))
    (hraise : StepRaises env model (k - 1) (stepsCfg.get ⟨k - 1, by omega⟩)) :
    (∀ fb, 2 ≤ k → (∀ p, env.fallbackGen p = .ok fb) →
      ∃ r, run_pipeline query model env = .ok r
        ∧ r.sources = sourcesOf passages
        ∧ r.error.isSome
        ∧ r.debug_steps.length = k - 1)
    ∧ (k = 1 →
      ∃ r, run_pipeline query model env = .ok r
        ∧ r.sources = sourcesOf passages
        ∧ r.error.isSome
        ∧ r.debug_steps = [])
    ∧ (∀ e2, 2 ≤ k → (∀ p, env.fallbackGen p = .error e2) →
      ∃ r, run_pipeline query model env = .ok r
        ∧ r.sources = sourcesOf passages
        ∧ r.error.isSome
        ∧ r.debug_steps = []) := by
  obtain ⟨logm, e, hlen, hrp⟩ :=
    run_pipeline_step_failure query model env stepsCfg passages k
      hc hr hk1 hk2 hok hraise
  refine ⟨?_, ?_, ?_⟩
  · intro fb hk2' hfb
    have hne : logm.isEmpty = false := by
      rw [List.isEmpty_eq_false]
      intro h0
      rw [h0] at hlen
      simp at hlen
      omega
    exact ⟨_, hrp, by simp [pipelineHandler, hne, hfb],
      by simp [pipelineHandler, hne, hfb],
      by simp [pipelineHandler, hne, hfb, hlen]⟩
  · intro hk1'
    have h0 : logm = [] := by
      rw [hk1'] at hlen
      simpa using hlen
    subst h0
    exact ⟨_, hrp, by simp [pipelineHandler, totalFailureResult],
      by simp [pipelineHandler, totalFailureResult],
      by simp [pipelineHandler, totalFailureResult]⟩
  · intro e2 hk2' hfb
    have hne : logm.isEmpty = false := by
      rw [List.isEmpty_eq_false]
      intro h0
      rw [h0] at hlen
      simp at hlen
      omega
    exact ⟨_, hrp, by simp [pipelineHandler, hne, hfb, totalFailureResult],
      by simp [pipelineHandler, hne, hfb, totalFailureResult],
      by simp [pipelineHandler, hne, hfb, totalFailureResult]⟩

/-- C4 counterexample: on `envB` the first step completes (the step loop
fails with a one-record log) and the fallback call fails, yet the returned
total-failure payload has `debug_steps = []` — the completed step's record
is dropped, contradicting the claim as stated. -/
theorem c4_counterexample :
    (∃ log1 e, runSteps envB "q" "" "No sources available" "m" 0
        (ctxInit "q" "" "No sources available") [] [stepD, stepC] =
        .error (log1, e) ∧ log1.length = 1)
    ∧ ∃ r, run_pipeline "q" "m" envB = .ok r
        ∧ r.debug_steps = []
        ∧ r.partial_success = some false := by
  constructor
  · exact ⟨_, _, rfl, rfl⟩
  · exact ⟨_, rfl, rfl, rfl⟩

/-- Witness for C4 on `envB`: second step raises, fallback raises. -/
theorem c4_witness :
    ∃ r, run_pipeline "q" "m" envB = .ok r
      ∧ r.sources = sourcesOf []
      ∧ r.error.isSome
      ∧ r.debug_steps = [] :=
  (c4_failure_payload_contents "q" "m" envB [stepD, stepC] [] 2 rfl rfl
      (by omega) (by decide)
      (by
        intro j hj
        have hj0 : j = 0 := by omega
        subst hj0
        exact ⟨rfl, ⟨⟨some "Agent", some "desc"⟩, rfl, "desc", rfl⟩,
          fun p => ⟨"out0", rfl⟩⟩)
      (Or.inr (Or.inr (Or.inr (fun p => ⟨PyErr.exc "boom", rfl⟩))))).2.2
    (PyErr.exc "fallback boom") (by omega) (fun p => rfl)

/-! ## Claim C5 -/

/-- C5 (amended): after a successful run of a configured step list from the
seed context, the context keys are exactly the three seed keys plus the
output keys of the completed steps, and no step removes a key; provided the
steps' output keys are pairwise distinct (as with the four distinct default
agents), each completed step adds exactly one new key, so the final key list
is the three seed keys followed by the output keys in order.  (A repeated
agent overwrites its earlier key and adds none — see the counterexample.) -/
theorem c5_context_keys (env : Env) (q c s m : String) (l : List Step)
    (ctx' : StrDict) (log' : List StepRecord)
    (h : runSteps env q c s m 0 (ctxInit q c s) [] l = .ok (ctx', log')) :
    (∀ key, (dictGet ctx' key).isSome ↔
      (key = "query" ∨ key = "context" ∨ key = "sources_md" ∨ key ∈ outKeys l))
    ∧ (("query" :: "context" :: "sources_md" :: outKeys l).Nodup →
        ctx'.map Prod.fst = "query" :: "context" :: "sources_md" :: outKeys l) := by
  constructor
  · intro key
    rw [runSteps_ok_keys env q c s m l 0 _ _ _ _ h key, dictGet_isSome_iff]
    simp [ctxInit, or_assoc]
  · intro hnd
    have hnd' : ((ctxInit q c s).map Prod.fst ++ outKeys l).Nodup := by
      simpa [ctxInit] using hnd
    have := runSteps_ok_keysList env q c s m l 0 _ _ _ _ h hnd'
    simpa [ctxInit] using this

/-- C5 counterexample: two decomposer steps, every call succeeding: the
context after both steps has the same four keys as after the first step —
the second completed step adds no new key, contradicting the claim that
each completed step adds exactly one. -/
theorem c5_counterexample :
    (∃ ctx2 log2, runSteps envDup "q" "" "No sources available" "m" 0
        (ctxInit "q" "" "No sources available") [] [stepD, stepD] =
        .ok (ctx2, log2)
      ∧ ctx2.map Prod.fst = ["query", "context", "sources_md", "breakdown"])
    ∧ (∃ ctx1 log1, runSteps envDup "q" "" "No sources available" "m" 0
        (ctxInit "q" "" "No sources available") [] [stepD] = .ok (ctx1, log1)
      ∧ ctx1.map Prod.fst = ["query", "context", "sources_md", "breakdown"]) := by
  constructor
  · exact ⟨_, _, rfl, rfl⟩
  · exact ⟨_, _, rfl, rfl⟩

/-- Witness for C5 on `envC`: decomposer then critique, distinct output
keys. -/
theorem c5_witness :
    (∀ key, (dictGet [("query", "q"), ("context", ""),
        ("sources_md", "No sources available"), ("breakdown", "out"),
        ("critique", "out")] key).isSome ↔
      (key = "query" ∨ key = "context" ∨ key = "sources_md" ∨
        key ∈ outKeys [stepD, stepC]))
    ∧ (("query" :: "context" :: "sources_md" :: outKeys [stepD, stepC]).Nodup →
        ([("query", "q"), ("context", ""),
          ("sources_md", "No sources available"), ("breakdown", "out"),
          ("critique", "out")] : StrDict).map Prod.fst =
          "query" :: "context" :: "sources_md" :: outKeys [stepD, stepC]) :=
  c5_context_keys envC "q" "" "No sources available" "m" [stepD, stepC] _ _ rfl

/-! ## Claim C8 -/

theorem foldl_mergeStep_not_mem (kwargs : List (String × PyVal))
    (d : List (String × PyVal)) (k : String)
    (h : k ∉ kwargs.map Prod.fst) :
    dictGet (kwargs.foldl mergeStep d) k = dictGet d k := by
  induction kwargs generalizing d with
  | nil => rfl
  | cons p rest ih =>
    simp only [List.map_cons, List.mem_cons] at h
    push_neg at h
    rw [List.foldl_cons, ih _ h.2]
    unfold mergeStep
    split_ifs with hif
    · rw [dictGet_dictSet]
      simp [Ne.symm h.1]
    · rfl

theorem foldl_mergeStep_mem (kwargs : List (String × PyVal))
    (d : List (String × PyVal)) (k : String) (v : PyVal)
    (hnd : (kwargs.map Prod.fst).Nodup) (hm : (k, v) ∈ kwargs)
    (hk : k ≠ "max_tokens") :
    dictGet (kwargs.foldl mergeStep d) k =
      if v = PyVal.vNone then dictGet d k else some v := by
  induction kwargs generalizing d with
  | nil => simp at hm
  | cons p rest ih =>
    simp only [List.map_cons, List.nodup_cons] at hnd
    rw [List.foldl_cons]
    rcases List.mem_cons.mp hm with he | hmem
    · have hnot : k ∉ rest.map Prod.fst := by
        have : p.1 = k := by rw [← he]
        exact this ▸ hnd.1
      rw [foldl_mergeStep_not_mem rest _ k hnot]
      rw [← he]
      unfold mergeStep
      by_cases hv : v = PyVal.vNone
      · simp [hv]
      · simp [hv, hk, dictGet_dictSet]
    · have hne : p.1 ≠ k := by
        intro he2
        exact hnd.1 (he2 ▸ List.mem_map_of_mem Prod.fst hmem)
      rw [ih _ hnd.2 hmem]
      have hd : dictGet (mergeStep d p) k = dictGet d k := by
        unfold mergeStep
        split_ifs with hif
        · rw [dictGet_dictSet]
          simp [hne]
        · rfl
      rw [hd]

/-- C8: the request payload is the merge of the default generation options
(prediction-length cap, temperature, nucleus-sampling threshold, repeat
penalty, context window size, stop sequences) with the caller-supplied
overrides: for every listed option name supplied by the caller the caller's
value wins over the default, and with no overrides each option carries its
default. -/
theorem c8_payload_caller_wins (prompt sys model : String)
    (kwargs : List (String × PyVal))
    (hnd : (kwargs.map Prod.fst).Nodup) (k : String)
    (hk : k ∈ genOptionKeys) :
    (∀ v, (k, v) ∈ kwargs →
      dictGet (buildPayload prompt sys model kwargs) k = some v)
    ∧ (kwargs = [] →
      dictGet (buildPayload prompt sys model kwargs) k = some (genDefault k)) := by
  simp only [genOptionKeys, List.mem_cons, List.mem_singleton,
    List.not_mem_nil, or_false] at hk
  constructor
  · intro v hm
    have hkmt : k ≠ "max_tokens" := by
      rcases hk with rfl | rfl | rfl | rfl | rfl | rfl <;> decide
    have hkv : dictGet kwargs k = some v := dictGet_of_mem_nodup _ _ _ hnd hm
    rw [buildPayload, foldl_mergeStep_mem kwargs _ k v hnd hm hkmt]
    by_cases hv : v = PyVal.vNone
    · rw [if_pos hv]
      rcases hk with rfl | rfl | rfl | rfl | rfl | rfl <;>
        simp [basePayload, dictGet, kwGet, hkv, hv]
    · rw [if_neg hv]
  · rintro rfl
    rcases hk with rfl | rfl | rfl | rfl | rfl | rfl <;> rfl

/-- Witness for C8: a single caller-supplied temperature override wins. -/
theorem c8_witness :
    dictGet (buildPayload "p" "s" "m" [("temperature", PyVal.vRat 1)])
      "temperature" = some (PyVal.vRat 1) :=
  (c8_payload_caller_wins "p" "s" "m" [("temperature", PyVal.vRat 1)]
      (by decide) "temperature" (by decide)).1
    (PyVal.vRat 1) (by decide)

/-! ## Claim C9 -/

/-- C9 counterexample: the claim says the three failure kinds are raised as
three distinct typed errors (`GenerationTimeout`, `GenerationConnectionError`,
`GenerationError`), distinguishable by type.  In the code every failure
branch raises the generic `Exception` class: at the default timeout, model
and URL, the timeout failure and the connection failure raise exceptions of
the same type, and that type is not `GenerationTimeout`. -/
theorem c9_counterexample :
    raisedType (generate 120 "gemma3:4b" "http://localhost:11434"
        HttpOutcome.timeout) =
      raisedType (generate 120 "gemma3:4b" "http://localhost:11434"
        HttpOutcome.connErr)
    ∧ raisedType (generate 120 "gemma3:4b" "http://localhost:11434"
        HttpOutcome.timeout) ≠ some "GenerationTimeout" := by
  constructor
  · rfl
  · decide

/-- Two strings with distinct characters at some position inside both of
their leading chunks differ, whatever follows. -/
theorem append_ne_append_of_getElem (p₁ p₂ x y : String) (n : Nat)
    (h₁ : n < p₁.data.length) (h₂ : n < p₂.data.length)
    (hne : p₁.data[n]? ≠ p₂.data[n]?) :
    p₁ ++ x ≠ p₂ ++ y := by
  intro h
  have hd : p₁.data ++ x.data = p₂.data ++ y.data := by
    simpa [String.data_append] using congrArg String.data h
  have e₁ : (p₁.data ++ x.data)[n]? = p₁.data[n]? := List.getElem?_append_left h₁
  have e₂ : (p₂.data ++ y.data)[n]? = p₂.data[n]? := List.getElem?_append_left h₂
  rw [hd] at e₁
  exact hne (e₁.symm.trans e₂)

/-- C9 (amended): `generate` converts all three failure kinds into the single
generic `Exception` class — a caller cannot distinguish them by error type —
while the three messages always differ: a timeout message naming the timeout
and model, a connection message naming the server URL, and a wrapped message
for any other failure. -/
theorem c9_failures_same_type_distinct_messages
    (t : Nat) (model url detail : String) :
    raisedType (generate t model url HttpOutcome.timeout) = some "Exception"
    ∧ raisedType (generate t model url HttpOutcome.connErr) = some "Exception"
    ∧ raisedType (generate t model url (HttpOutcome.otherFail detail)) =
        some "Exception"
    ∧ raisedMsg (generate t model url HttpOutcome.timeout) =
        some ("Ollama request timed out after " ++ toString t ++
          " seconds. Model: " ++ model)
    ∧ raisedMsg (generate t model url HttpOutcome.connErr) =
        some ("Could not connect to Ollama server at " ++ url)
    ∧ raisedMsg (generate t model url (HttpOutcome.otherFail detail)) =
        some ("Ollama request failed: " ++ detail)
    ∧ raisedMsg (generate t model url HttpOutcome.timeout) ≠
        raisedMsg (generate t model url HttpOutcome.connErr)
    ∧ raisedMsg (generate t model url HttpOutcome.timeout) ≠
        raisedMsg (generate t model url (HttpOutcome.otherFail detail))
    ∧ raisedMsg (generate t model url HttpOutcome.connErr) ≠
        raisedMsg (generate t model url (HttpOutcome.otherFail detail)) := by
  have hTO : "Ollama request timed out after " ++ toString t ++
      " seconds. Model: " ++ model =
      "Ollama request timed out after " ++
        (toString t ++ (" seconds. Model: " ++ model)) := by
    rw [String.append_assoc, String.append_assoc]
  refine ⟨rfl, rfl, rfl, rfl, rfl, rfl, ?_, ?_, ?_⟩
  · simp only [raisedMsg, generate, ne_eq, Option.some.injEq]
    rw [hTO]
    exact append_ne_append_of_getElem _ _ _ _ 0 (by decide) (by decide) (by decide)
  · simp only [raisedMsg, generate, ne_eq, Option.some.injEq]
    rw [hTO]
    exact append_ne_append_of_getElem _ _ _ _ 15 (by decide) (by decide) (by decide)
  · simp only [raisedMsg, generate, ne_eq, Option.some.injEq]
    exact append_ne_append_of_getElem _ _ _ _ 0 (by decide) (by decide) (by decide)

/-- Witness for C10 on a concrete one-passage retrieval. -/
theorem c10_witness :
    (sourcesOf [passNoSource]).get? 0 = some none
    ∧ (∀ j : Nat,
        mdEntry j none = toString j ++ ". Unknown source"
        ∧ mdEntry j (some "") = toString j ++ ". Unknown source"
        ∧ mdEntry j (some "Unknown") = toString j ++ ". Unknown source"
        ∧ ∀ s : String, s ≠ "" → s ≠ "Unknown" →
            mdEntry j (some s) = toString j ++ ". **" ++ s ++ "**")
    ∧ (∀ l : List (Option String), l ≠ [] →
        sources_to_markdown l = String.intercalate "\n" (mdLines 1 l)) :=
  c10_missing_source_metadata [passNoSource] 0 (by decide) rfl

end RAG
